import Mathlib

/-!
# Verification of the users CRUD backend

Shallow embedding of the repository's user-management service:

* `src/src/users/dto/user.schema.ts` — the Zod `CreateUserSchema` /
  `UpdateUserSchema` validators (modelled by `createSafeParse` /
  `updateSafeParse` over a JSON value type);
* `src/unnamed/part_000` — `UsersService` (create / list / delete / update
  over the Prisma store, modelled as explicit state passing over a list of
  records, newest first to reflect `orderBy createdAt desc`) and
  `UsersController` (the routes shaping the response envelopes).

External collaborators are abstracted as follows:

* the Zod e-mail format test (`z.email`) and the JS `Date.parse` validity
  test are taken as parameters `E D : String → Bool` of the validation
  layer — they are library/runtime builtins, not repository code;
* JS numbers appearing here are integers (page / limit / array indices);
  `NaN` is modelled as `none` in `JsNum := Option Int`;
* the Prisma store is a list of records; `findUnique` / `findFirst` are
  `List.find?`, `count` is `List.length`, `findMany` with
  `skip` / `take` / `orderBy createdAt desc` is `drop` / `take` on the
  newest-first list, `create` prepends (Prisma's generated id is supplied
  as an argument; a collision with an existing id makes `create` throw,
  which the service catches — mirroring the table's unique id constraint).
-/

namespace UserCrud

/-- A JSON value, as delivered by the HTTP body parser.  Object keys are
assumed unique (the result of parsing a JSON text). -/
inductive Json where
  | null
  | bool (b : Bool)
  | num (n : Int)
  | str (s : String)
  | arr (elems : List Json)
  | obj (fields : List (String × Json))

/-- The guard used by both `createUser` and `updateUser`:
`!userData || typeof userData !== 'object' || Array.isArray(userData)`
rejects everything except a (non-null, non-array) object. -/
def Json.isObj : Json → Bool
  | .obj _ => true
  | _ => false

/-- JS property access `j[k]` on an object. -/
def Json.getField : Json → String → Option Json
  | .obj fs, k => (fs.find? (fun p => p.1 == k)).map Prod.snd
  | _, _ => none

/-- The name Zod reports for the parsed type of a value. -/
def typeName : Json → String
  | .null => "null"
  | .bool _ => "boolean"
  | .num _ => "number"
  | .str _ => "string"
  | .arr _ => "array"
  | .obj _ => "object"

/-- One step of a Zod issue path: an object key or an array index. -/
inductive PathKey where
  | key (s : String)
  | idx (n : Nat)
deriving DecidableEq

/-- How `err.path.join('.')` renders one path step. -/
def PathKey.render : PathKey → String
  | .key s => s
  | .idx n => toString n

/-- Source `err.path.join('.')`. -/
def pathJoin (p : List PathKey) : String :=
  String.intercalate "." (p.map PathKey.render)

/-- One Zod validation issue: its path and its message. -/
structure Issue where
  path : List PathKey
  message : String
deriving DecidableEq

/-- Source `err.path.reduce((obj, key) => obj?.[key], userData)`: walk an issue
path into the raw candidate; `none` models `undefined`. -/
def walkPath : Json → List PathKey → Option Json
  | j, [] => some j
  | .obj fs, .key k :: rest =>
      match (Json.obj fs).getField k with
      | some v => walkPath v rest
      | none => none
  | .obj fs, .idx n :: rest =>
      match (Json.obj fs).getField (toString n) with
      | some v => walkPath v rest
      | none => none
  | .arr xs, .idx n :: rest =>
      match xs.get? n with
      | some v => walkPath v rest
      | none => none
  | _, _ => none

/-- One competency entry (`skills` element of `CreateUserSchema`). -/
structure Skill where
  field : String
  tags : List String
deriving DecidableEq

/-- The normalized output of `CreateUserSchema.safeParse`.  `dateOfBirth`
keeps the (parse-validated) source string: the `new Date(val)` transform is
an external constructor and no claim inspects the date value. -/
structure CreateData where
  name : String
  ext : String
  phone : String
  email : String
  dateOfBirth : String
  password : String
  skills : List Skill
deriving DecidableEq

/-- The output of `UpdateUserSchema.safeParse` (`CreateUserSchema.partial()`):
every field optional, absent keys absent from the change set. -/
structure UpdateData where
  name : Option String := none
  ext : Option String := none
  phone : Option String := none
  email : Option String := none
  dateOfBirth : Option String := none
  password : Option String := none
  skills : Option (List Skill) := none
deriving DecidableEq

/-- JS `String.prototype.toLowerCase`, character-wise. -/
def jsToLower (s : String) : String := ⟨s.data.map Char.toLower⟩

/-- JS `String.prototype.trim`: strip leading and trailing whitespace. -/
def jsTrim (s : String) : String :=
  ⟨((s.data.dropWhile Char.isWhitespace).reverse.dropWhile Char.isWhitespace).reverse⟩

/-- The e-mail normalization performed by the schema:
`.trim()` then `.toLowerCase()`. -/
def normEmail (s : String) : String := jsToLower (jsTrim s)

/-- Zod's result accumulation over two sub-parses: both issue lists are
collected, in order. -/
def accum : Except (List Issue) α → Except (List Issue) β →
    Except (List Issue) (α × β)
  | .ok a, .ok b => .ok (a, b)
  | .error e, .ok _ => .error e
  | .ok _, .error f => .error f
  | .error e, .error f => .error (e ++ f)

/-- Re-root the issues of a sub-parse under one more path step. -/
def withKey (k : PathKey) : Except (List Issue) α → Except (List Issue) α
  | .error es => .error (es.map fun i => ⟨k :: i.path, i.message⟩)
  | .ok a => .ok a

/-- Zod's `invalid_type` issue text. -/
def typeIssue (expected : String) (v : Option Json) : Issue :=
  ⟨[], "Invalid input: expected " ++ expected ++ ", received " ++
    (match v with | none => "undefined" | some j => typeName j)⟩

/-- A required object key: absent keys give the `received undefined`
invalid-type issue. -/
def reqField (expected : String) (v : Option Json)
    (f : Json → Except (List Issue) α) : Except (List Issue) α :=
  match v with
  | none => .error [typeIssue expected none]
  | some j => f j

/-- An optional object key (`.partial()` mode): absent keys are simply
absent from the output. -/
def optField (v : Option Json) (f : Json → Except (List Issue) α) :
    Except (List Issue) (Option α) :=
  match v with
  | none => .ok none
  | some j => (f j).map some

/-- Source `name: z.string().min(2, …).max(100, …).trim()`. -/
def parseName : Json → Except (List Issue) String
  | .str s =>
      if s.length < 2 then
        .error [⟨[], "Name must be at least 2 characters long"⟩]
      else if 100 < s.length then
        .error [⟨[], "Name must be less than 100 characters"⟩]
      else .ok (jsTrim s)
  | v => .error [typeIssue "string" (some v)]

/-- Source `ext: z.string().min(1, …).trim()`. -/
def parseExt : Json → Except (List Issue) String
  | .str s =>
      if s.length < 1 then
        .error [⟨[], "Phone country code is required"⟩]
      else .ok (jsTrim s)
  | v => .error [typeIssue "string" (some v)]

/-- Source `phone: z.string().min(5, …).trim()`. -/
def parsePhone : Json → Except (List Issue) String
  | .str s =>
      if s.length < 5 then
        .error [⟨[], "Phone number must be at least 5 characters long"⟩]
      else .ok (jsTrim s)
  | v => .error [typeIssue "string" (some v)]

/-- Source `email: z.email(…).trim().toLowerCase()`: the format test `E` runs on
the raw string, the stored value is the trimmed, lower-cased string. -/
def parseEmail (E : String → Bool) : Json → Except (List Issue) String
  | .str s =>
      if E s then .ok (normEmail s)
      else .error [⟨[], "Please provide a valid email address"⟩]
  | v => .error [typeIssue "string" (some v)]

/-- Source `dateOfBirth: z.string().refine(val => !isNaN(Date.parse(val)), …)
.transform(val => new Date(val))`; `D` is the `Date.parse` validity test. -/
def parseDob (D : String → Bool) : Json → Except (List Issue) String
  | .str s =>
      if D s then .ok s
      else .error [⟨[], "Date of birth must be a valid date"⟩]
  | v => .error [typeIssue "string" (some v)]

/-- Source `password: z.string().min(6, …).max(100, …)` (no trim). -/
def parsePassword : Json → Except (List Issue) String
  | .str s =>
      if s.length < 6 then
        .error [⟨[], "Password must be at least 6 characters long"⟩]
      else if 100 < s.length then
        .error [⟨[], "Password must be less than 100 characters"⟩]
      else .ok s
  | v => .error [typeIssue "string" (some v)]

/-- A `skills[i].field` entry: `z.string().min(3, …).trim()`. -/
def parseSkillField : Json → Except (List Issue) String
  | .str s =>
      if s.length < 3 then
        .error [⟨[], "Skill field must be at least 3 characters long"⟩]
      else .ok (jsTrim s)
  | v => .error [typeIssue "string" (some v)]

/-- A `skills[i].tags[j]` entry: `z.string().min(3, …).trim()`. -/
def parseTag : Json → Except (List Issue) String
  | .str s =>
      if s.length < 3 then
        .error [⟨[], "Each skill tag must be at least 3 characters long"⟩]
      else .ok (jsTrim s)
  | v => .error [typeIssue "string" (some v)]

/-- Parse the elements of an array, issues indexed and in element order. -/
def collectIdx (f : Json → Except (List Issue) α) :
    Nat → List Json → Except (List Issue) (List α)
  | _, [] => .ok []
  | i, x :: xs =>
      (accum (withKey (.idx i) (f x)) (collectIdx f (i + 1) xs)).map
        fun p => p.1 :: p.2

/-- Source `tags: z.array(…).min(1, 'At least one skill tag is required')`. -/
def parseTags (v : Json) : Except (List Issue) (List String) :=
  match v with
  | .arr xs =>
      if xs.length < 1 then
        .error [⟨[], "At least one skill tag is required"⟩]
      else collectIdx parseTag 0 xs
  | v => .error [typeIssue "array" (some v)]

/-- A `skills` element: `z.object({ field, tags })`; issues of both keys
are collected in key order. -/
def parseSkill (v : Json) : Except (List Issue) Skill :=
  match v with
  | .obj _ =>
      (accum (withKey (.key "field") (reqField "string" (v.getField "field") parseSkillField))
             (withKey (.key "tags") (reqField "array" (v.getField "tags") parseTags))).map
        fun p => ⟨p.1, p.2⟩
  | v => .error [typeIssue "object" (some v)]

/-- Source `skills: z.array(…).min(1, 'At least one skill is required')`. -/
def parseSkills (v : Json) : Except (List Issue) (List Skill) :=
  match v with
  | .arr xs =>
      if xs.length < 1 then
        .error [⟨[], "At least one skill is required"⟩]
      else collectIdx parseSkill 0 xs
  | v => .error [typeIssue "array" (some v)]

/-- Source `CreateUserSchema.safeParse`: all keys required, unknown keys stripped,
issues collected over all keys in schema definition order. -/
def createSafeParse (E D : String → Bool) (j : Json) :
    Except (List Issue) CreateData :=
  match j with
  | .obj _ =>
      (accum (withKey (.key "name") (reqField "string" (j.getField "name") parseName))
      (accum (withKey (.key "ext") (reqField "string" (j.getField "ext") parseExt))
      (accum (withKey (.key "phone") (reqField "string" (j.getField "phone") parsePhone))
      (accum (withKey (.key "email") (reqField "string" (j.getField "email") (parseEmail E)))
      (accum (withKey (.key "dateOfBirth") (reqField "string" (j.getField "dateOfBirth") (parseDob D)))
      (accum (withKey (.key "password") (reqField "string" (j.getField "password") parsePassword))
             (withKey (.key "skills") (reqField "array" (j.getField "skills") parseSkills)))))))).map
        fun (n, x, p, e, d, pw, sk) => ⟨n, x, p, e, d, pw, sk⟩
  | _ => .error [typeIssue "object" (some j)]

/-- Source `UpdateUserSchema.safeParse` (`CreateUserSchema.partial()`): same keys,
all optional, id never among them. -/
def updateSafeParse (E D : String → Bool) (j : Json) :
    Except (List Issue) UpdateData :=
  match j with
  | .obj _ =>
      (accum (withKey (.key "name") (optField (j.getField "name") parseName))
      (accum (withKey (.key "ext") (optField (j.getField "ext") parseExt))
      (accum (withKey (.key "phone") (optField (j.getField "phone") parsePhone))
      (accum (withKey (.key "email") (optField (j.getField "email") (parseEmail E)))
      (accum (withKey (.key "dateOfBirth") (optField (j.getField "dateOfBirth") (parseDob D)))
      (accum (withKey (.key "password") (optField (j.getField "password") parsePassword))
             (withKey (.key "skills") (optField (j.getField "skills") parseSkills)))))))).map
        fun (n, x, p, e, d, pw, sk) => ⟨n, x, p, e, d, pw, sk⟩
  | _ => .error [typeIssue "object" (some j)]

/-! ## The persisted record and the store -/

/-- A persisted user row.  `id` is the Prisma-generated identifier;
`dateOfBirth` keeps the validated source string (see `CreateData`);
`createdAt` / `updatedAt` are omitted — the list order of the store is
newest-first, standing for `orderBy createdAt desc`. -/
structure User where
  id : String
  name : String
  ext : String
  phone : String
  email : String
  dateOfBirth : String
  password : String
  skills : List Skill
deriving DecidableEq

/-- The user table, newest record first. -/
abbrev Store := List User

/-- One entry of the `errors` array of a failure payload;
`receivedValue` is `none` where the code supplies no such property. -/
structure FieldError where
  field : String
  message : String
  receivedValue : Option Json

/-- A `BadRequestException`: the service throws it either with a plain
string message or with a `{message, errors}` object body. -/
inductive BadRequest where
  | strMsg (m : String)
  | objBody (message : String) (errors : List FieldError)

/-- JS `haystack.includes(needle)` on lists of characters. -/
def includesAux (needle : List Char) : List Char → Bool
  | [] => needle.isEmpty
  | c :: rest => needle.isPrefixOf (c :: rest) || includesAux needle rest

/-- JS `haystack.includes(needle)`. -/
def strIncludes (hay needle : String) : Bool :=
  includesAux needle.data hay.data

/-- Source `UsersService.createUser`'s formatting of one Zod issue:
dotted path (or `root`), message prefixed with the path when it does not
already mention it, and the raw value found by walking the path. -/
def formatCreateIssue (userData : Json) (i : Issue) : FieldError :=
  let field := if pathJoin i.path = "" then "root" else pathJoin i.path
  let message :=
    if strIncludes (jsToLower i.message) (jsToLower field) = false ∧ field ≠ "root" then
      field ++ ": " ++ i.message
    else i.message
  ⟨field, message, walkPath userData i.path⟩

/-- The row `prisma.user.create` persists from validated create data. -/
def mkUser (id : String) (d : CreateData) : User :=
  ⟨id, d.name, d.ext, d.phone, d.email, d.dateOfBirth, d.password, d.skills⟩

/-- Source `UsersService.createUser`: body guard, Zod validation, duplicate-email
lookup (`findUnique` on the normalized email), then `prisma.user.create`.
`freshId` is the id Prisma generates; if it collides with an existing row
the insert throws and the catch turns it into the generic creation
failure. -/
def createUser (E D : String → Bool) (freshId : String) (userData : Json)
    (s : Store) : Except BadRequest (User × Store) :=
  if userData.isObj = false then
    .error (.objBody "Invalid request body"
      [⟨"body", "Request body must be a valid JSON object", none⟩])
  else
    match createSafeParse E D userData with
    | .error issues =>
        .error (.objBody "Validation failed" (issues.map (formatCreateIssue userData)))
    | .ok d =>
        match s.find? (fun u => u.email == d.email) with
        | some _ =>
            .error (.objBody "User already exists"
              [⟨"email", "User with this email already exists", some (.str d.email)⟩])
        | none =>
            if s.any (fun u => u.id == freshId) then
              .error (.objBody "Failed to create user"
                [⟨"server", "Internal server error occurred while creating user", none⟩])
            else
              .ok (mkUser freshId d, mkUser freshId d :: s)

/-- Source `prisma.user.update({where: {id}, data})`: overwrite the present fields
of the matching row; the data object never contains `id`. -/
def applyUpdate (d : UpdateData) (u : User) : User :=
  { u with
    name := d.name.getD u.name
    ext := d.ext.getD u.ext
    phone := d.phone.getD u.phone
    email := d.email.getD u.email
    dateOfBirth := d.dateOfBirth.getD u.dateOfBirth
    password := d.password.getD u.password
    skills := d.skills.getD u.skills }

/-- The store after `prisma.user.update`, paired with the row the call
returns (the row now matching the id — the service's static type promises
a row, so the (never-null) lookup result is kept as an `Option`). -/
def prismaUpdate (s : Store) (id : String) (d : UpdateData) :
    Option User × Store :=
  let s' := s.map fun u => if u.id == id then applyUpdate d u else u
  (s'.find? (fun u => u.id == id), s')

/-- The store after `prisma.user.delete`, paired with the deleted row. -/
def prismaDelete (s : Store) (id : String) : Option User × Store :=
  (s.find? (fun u => u.id == id), s.filter (fun u => !(u.id == id)))

/-- Source `UsersService.deleteUser`: existence check first, client error naming
the id when absent, otherwise delete and return the deleted row. -/
def deleteUser (id : String) (s : Store) :
    Except BadRequest (Option User × Store) :=
  match s.find? (fun u => u.id == id) with
  | none => .error (.strMsg ("User with id " ++ id ++ " not found"))
  | some _ => .ok (prismaDelete s id)

/-- Source `UsersService.updateUser`: body guard, Zod validation (failures joined
into one `path: message` string), existence check, duplicate-email check
excluding the record's own id (only when the validated data carries a
truthy email — JS `if (validatedData.email)`), then the update. -/
def updateUser (E D : String → Bool) (id : String) (userData : Json)
    (s : Store) : Except BadRequest (Option User × Store) :=
  if userData.isObj = false then
    .error (.strMsg "Invalid input: Expected an object")
  else
    match updateSafeParse E D userData with
    | .error issues =>
        .error (.strMsg ("Validation failed: " ++
          String.intercalate ", " (issues.map fun i => pathJoin i.path ++ ": " ++ i.message)))
    | .ok d =>
        match s.find? (fun u => u.id == id) with
        | none => .error (.strMsg ("User with id " ++ id ++ " not found"))
        | some _ =>
            match d.email with
            | some e =>
                if e = "" then .ok (prismaUpdate s id d)
                else if (s.find? (fun u => u.email == e && !(u.id == id))).isSome then
                  .error (.strMsg "Email already exists")
                else .ok (prismaUpdate s id d)
            | none => .ok (prismaUpdate s id d)

/-! ## Pagination -/

/-- A JS number that may be `NaN` (`none`). -/
abbrev JsNum := Option Int

/-- The service-level pagination query: each member may be `undefined`. -/
structure PaginationQuery where
  page : Option JsNum := none
  limit : Option JsNum := none

/-- JS `x || d` for `x : number | undefined`: `undefined`, `NaN` and `0`
are falsy and select the default. -/
def jsOrDefault (x : Option JsNum) (d : Int) : Int :=
  match x with
  | none => d
  | some none => d
  | some (some n) => if n = 0 then d else n

/-- Source `Math.ceil(n / b)` for a non-negative integer `n` and a non-zero
integer `b` (the only shapes reaching it: `n` is a row count and `b` an
`||`-defaulted limit, which is never `0`; the `b = 0` branch is junk). -/
def jsCeilDiv (n : Nat) (b : Int) : Int :=
  if 0 < b then ((n + b.toNat - 1) / b.toNat : Nat)
  else if b < 0 then -((n / (-b).toNat : Nat))
  else 0

/-- What `UsersService.getAllUsers` resolves with. -/
structure PagResult where
  data : List User
  totalUsers : Int
  totalPages : Int
  currentPage : Int
  limit : Int
  hasNext : Bool
  hasPrev : Bool
deriving DecidableEq

/-- Source `UsersService.getAllUsers`: default page 1 and limit 5, total pages by
ceiling division, current page clamped by `Math.max(1, Math.min(page,
totalPages))`, fetch offset `(currentPage - 1) * limit`, at most `limit`
rows from the newest-first store. -/
def getAllUsers (q : PaginationQuery) (s : Store) : PagResult :=
  let page := jsOrDefault q.page 1
  let limit := jsOrDefault q.limit 5
  let totalUsers : Int := s.length
  let totalPages := jsCeilDiv s.length limit
  let currentPage := max 1 (min page totalPages)
  let offset := (currentPage - 1) * limit
  let data := (s.drop offset.toNat).take limit.toNat
  { data := data
    totalUsers := totalUsers
    totalPages := totalPages
    currentPage := currentPage
    limit := limit
    hasNext := decide (currentPage < totalPages)
    hasPrev := decide (currentPage > 1) }

/-! ## The controller -/

/-- JS `parseInt(str)`: skip whitespace, optional sign, then the maximal
decimal (or `0x`-hexadecimal) digit run; no digits means `NaN` (`none`). -/
def jsParseInt (str : String) : Option Int :=
  let cs := str.data.dropWhile Char.isWhitespace
  let (sign, cs) : Int × List Char :=
    match cs with
    | '-' :: rest => (-1, rest)
    | '+' :: rest => (1, rest)
    | _ => (1, cs)
  match cs with
  | '0' :: 'x' :: rest =>
      let ds := rest.takeWhile (fun c => c.isDigit || ('a' ≤ c && c ≤ 'f') || ('A' ≤ c && c ≤ 'F'))
      if ds.isEmpty then none
      else some (sign * (ds.foldl (fun a c => a * 16 +
        (if c.isDigit then c.toNat - 48 else if 'a' ≤ c then c.toNat - 87 else c.toNat - 55)) 0 : Nat))
  | '0' :: 'X' :: rest =>
      let ds := rest.takeWhile (fun c => c.isDigit || ('a' ≤ c && c ≤ 'f') || ('A' ≤ c && c ≤ 'F'))
      if ds.isEmpty then none
      else some (sign * (ds.foldl (fun a c => a * 16 +
        (if c.isDigit then c.toNat - 48 else if 'a' ≤ c then c.toNat - 87 else c.toNat - 55)) 0 : Nat))
  | _ =>
      let ds := cs.takeWhile Char.isDigit
      if ds.isEmpty then none
      else some (sign * (ds.foldl (fun a c => a * 10 + (c.toNat - 48)) 0 : Nat))

/-- The raw `?page` / `?limit` query strings as the controller sees them. -/
structure RawQuery where
  page : Option String := none
  limit : Option String := none

/-- Source `UsersController.getAllUsers`'s translation of the raw query:
`query.page ? parseInt(query.page) : undefined` — the empty string is the
only falsy string. -/
def toPagination (q : RawQuery) : PaginationQuery :=
  { page :=
      match q.page with
      | some str => if str = "" then none else some (jsParseInt str)
      | none => none
    limit :=
      match q.limit with
      | some str => if str = "" then none else some (jsParseInt str)
      | none => none }

/-- The uniform `{success, message, data?, errors?}` envelope. -/
structure Envelope where
  success : Bool
  message : String
  data : Option User := none
  errors : Option (List FieldError) := none

/-- An HTTP response: the framework-level status code plus the JSON body. -/
structure HttpResponse where
  status : Nat
  body : Envelope

/-- Source `error.getResponse().message || error.message` for the two exception
shapes. -/
def badRequestMessage : BadRequest → String
  | .strMsg m => m
  | .objBody m _ => m

/-- Source `error.getResponse().errors || []`. -/
def badRequestErrors : BadRequest → List FieldError
  | .strMsg _ => []
  | .objBody _ es => es

/-- Source `UsersController.createUser` with its `@HttpCode(HttpStatus.CREATED)`
route status: the handler catches every service error and returns the
failure envelope normally, so the route status applies to both branches. -/
def createUserRoute (E D : String → Bool) (freshId : String) (body : Json)
    (s : Store) : HttpResponse × Store :=
  match createUser E D freshId body s with
  | .ok (u, s') =>
      (⟨201, { success := true, message := "User created successfully", data := some u }⟩, s')
  | .error e =>
      (⟨201, { success := false, message := badRequestMessage e,
               errors := some (badRequestErrors e) }⟩, s)

/-- Source `UsersController.getAllUsers`: parse the query, call the service, and
flatten the pagination fields into the envelope. -/
structure PaginatedResponse where
  success : Bool
  message : String
  data : List User
  totalUsers : Int
  totalPages : Int
  currentPage : Int
  limit : Int
  hasNext : Bool
  hasPrev : Bool
deriving DecidableEq

/-- The list route. -/
def getAllUsersRoute (q : RawQuery) (s : Store) : PaginatedResponse :=
  let r := getAllUsers (toPagination q) s
  { success := true, message := "Users retrieved successfully"
    data := r.data, totalUsers := r.totalUsers, totalPages := r.totalPages
    currentPage := r.currentPage, limit := r.limit
    hasNext := r.hasNext, hasPrev := r.hasPrev }

/-- Source `UsersController.deleteUser`: service errors are rethrown (the catch
only re-throws); a null service result would produce the not-found
envelope, a real row the success envelope. -/
def deleteUserRoute (id : String) (s : Store) :
    Except BadRequest (Envelope × Store) :=
  match deleteUser id s with
  | .error e => .error e
  | .ok (u?, s') =>
      match u? with
      | none => .ok ({ success := false, message := "User not found" }, s')
      | some u =>
          .ok ({ success := true, message := "User deleted successfully", data := some u }, s')

/-- Source `UsersController.updateUser`: same shape as the delete handler. -/
def updateUserRoute (E D : String → Bool) (id : String) (body : Json)
    (s : Store) : Except BadRequest (Envelope × Store) :=
  match updateUser E D id body s with
  | .error e => .error e
  | .ok (u?, s') =>
      match u? with
      | none => .ok ({ success := false, message := "User not found" }, s')
      | some u =>
          .ok ({ success := true, message := "User updated successfully", data := some u }, s')

/-! ## Operation sequences over the store -/

/-- One mutating request against the store. -/
inductive Op where
  | create (freshId : String) (body : Json)
  | update (id : String) (body : Json)
  | delete (id : String)

/-- Run one operation; a thrown `BadRequestException` leaves the store
untouched (the service writes nothing on its error paths). -/
def applyOp (E D : String → Bool) (s : Store) : Op → Store
  | .create fid b =>
      match createUser E D fid b s with
      | .ok (_, s') => s'
      | .error _ => s
  | .update id b =>
      match updateUser E D id b s with
      | .ok (_, s') => s'
      | .error _ => s
  | .delete id =>
      match deleteUser id s with
      | .ok (_, s') => s'
      | .error _ => s

/-- The store the service starts from. -/
def emptyStore : Store := []

/-- The store invariant the write paths maintain: ids and e-mails are
pairwise distinct. -/
def StoreInv (s : Store) : Prop :=
  (s.map User.id).Nodup ∧ (s.map User.email).Nodup

/-! ## Inversion lemmas for the validation layer -/

theorem accum_ok {a : Except (List Issue) α} {b : Except (List Issue) β} {x : α} {y : β} :
    accum a b = .ok (x, y) ↔ a = .ok x ∧ b = .ok y := by
  cases a <;> cases b <;> simp [accum]

theorem exceptMap_ok {r : Except (List Issue) α} {f : α → β} {b : β} :
    r.map f = .ok b ↔ ∃ a, r = .ok a ∧ f a = b := by
  cases r <;> simp [Except.map]

theorem withKey_ok {k : PathKey} {r : Except (List Issue) α} {a : α} :
    withKey k r = .ok a ↔ r = .ok a := by
  cases r <;> simp [withKey]

theorem reqField_ok {t : String} {v : Option Json} {f : Json → Except (List Issue) α} {a : α} :
    reqField t v f = .ok a ↔ ∃ j, v = some j ∧ f j = .ok a := by
  cases v <;> simp [reqField]

theorem optField_ok_some {v : Option Json} {f : Json → Except (List Issue) α} {a : α}
    (h : optField v f = .ok (some a)) : ∃ j, v = some j ∧ f j = .ok a := by
  cases v with
  | none => simp [optField] at h
  | some j =>
      rcases exceptMap_ok.mp h with ⟨a', ha', haa⟩
      cases haa
      exact ⟨j, rfl, ha'⟩

theorem parseEmail_ok {E : String → Bool} {v : Json} {e : String}
    (h : parseEmail E v = .ok e) : ∃ r, v = .str r ∧ E r = true ∧ e = normEmail r := by
  cases v with
  | str s =>
      by_cases hE : E s
      · refine ⟨s, rfl, hE, ?_⟩
        simp [parseEmail, hE] at h
        exact h.symm
      · simp [parseEmail, hE] at h
  | null => simp [parseEmail] at h
  | bool b => simp [parseEmail] at h
  | num n => simp [parseEmail] at h
  | arr xs => simp [parseEmail] at h
  | obj fs => simp [parseEmail] at h

/-- Inverting a successful create-mode parse: the candidate is an object
and the validated e-mail is the normalization of the raw `email` string,
which passed the format test. -/
theorem createSafeParse_ok {E D : String → Bool} {j : Json} {d : CreateData}
    (h : createSafeParse E D j = .ok d) :
    j.isObj = true ∧
    ∃ r, j.getField "email" = some (.str r) ∧ E r = true ∧ d.email = normEmail r := by
  cases j with
  | obj fs =>
      refine ⟨rfl, ?_⟩
      simp only [createSafeParse] at h
      rcases exceptMap_ok.mp h with ⟨⟨n, x, p, e, dd, pw, sk⟩, ht, hd⟩
      rcases accum_ok.mp ht with ⟨-, ht⟩
      rcases accum_ok.mp ht with ⟨-, ht⟩
      rcases accum_ok.mp ht with ⟨-, ht⟩
      rcases accum_ok.mp ht with ⟨hem, -⟩
      rcases reqField_ok.mp (withKey_ok.mp hem) with ⟨je, hje, hpe⟩
      rcases parseEmail_ok hpe with ⟨r, hr, hEr, her⟩
      subst hr
      exact ⟨r, hje, hEr, by rw [← hd]; exact her⟩
  | null => simp [createSafeParse] at h
  | bool b => simp [createSafeParse] at h
  | num n => simp [createSafeParse] at h
  | str s => simp [createSafeParse] at h
  | arr xs => simp [createSafeParse] at h

theorem updateSafeParse_ok_isObj {E D : String → Bool} {j : Json} {d : UpdateData}
    (h : updateSafeParse E D j = .ok d) : j.isObj = true := by
  cases j with
  | obj fs => rfl
  | null => simp [updateSafeParse] at h
  | bool b => simp [updateSafeParse] at h
  | num n => simp [updateSafeParse] at h
  | str s => simp [updateSafeParse] at h
  | arr xs => simp [updateSafeParse] at h

/-- Inverting a successful update-mode parse that carries an e-mail: the
value is the normalization of a raw string that passed the format test. -/
theorem updateSafeParse_ok_email {E D : String → Bool} {j : Json} {d : UpdateData} {e : String}
    (h : updateSafeParse E D j = .ok d) (he : d.email = some e) :
    ∃ r, E r = true ∧ e = normEmail r := by
  cases j with
  | obj fs =>
      simp only [updateSafeParse] at h
      rcases exceptMap_ok.mp h with ⟨⟨n, x, p, em, dd, pw, sk⟩, ht, hd⟩
      rcases accum_ok.mp ht with ⟨-, ht⟩
      rcases accum_ok.mp ht with ⟨-, ht⟩
      rcases accum_ok.mp ht with ⟨-, ht⟩
      rcases accum_ok.mp ht with ⟨hem, -⟩
      have hem' : optField ((Json.obj fs).getField "email") (parseEmail E) = .ok em :=
        withKey_ok.mp hem
      have hde : em = some e := by rw [← hd] at he; exact he
      subst hde
      rcases optField_ok_some hem' with ⟨je, -, hpe⟩
      rcases parseEmail_ok hpe with ⟨r, -, hEr, her⟩
      exact ⟨r, hEr, her⟩
  | null => simp [updateSafeParse] at h
  | bool b => simp [updateSafeParse] at h
  | num n => simp [updateSafeParse] at h
  | str s => simp [updateSafeParse] at h
  | arr xs => simp [updateSafeParse] at h

theorem createSafeParse_ok_isObj {E D : String → Bool} {j : Json} {d : CreateData}
    (h : createSafeParse E D j = .ok d) : j.isObj = true :=
  (createSafeParse_ok h).1

/-! ## Inversion lemmas for the service layer -/

@[simp] theorem applyUpdate_id (d : UpdateData) (u : User) :
    (applyUpdate d u).id = u.id := rfl

theorem applyUpdate_email {d : UpdateData} {e : String} (u : User)
    (hd : d.email = some e) : (applyUpdate d u).email = e := by
  simp [applyUpdate, hd]

theorem applyUpdate_email_none {d : UpdateData} (u : User)
    (hd : d.email = none) : (applyUpdate d u).email = u.email := by
  simp [applyUpdate, hd]

/-- Inverting a successful create: the body validated, the normalized
e-mail was free, the generated id was free, and the new row went in at the
head of the (newest-first) store. -/
theorem createUser_ok {E D : String → Bool} {fid : String} {b : Json} {s : Store}
    {u : User} {s' : Store}
    (h : createUser E D fid b s = .ok (u, s')) :
    ∃ d, createSafeParse E D b = .ok d ∧ u = mkUser fid d ∧ s' = mkUser fid d :: s ∧
      s.find? (fun v => v.email == d.email) = none ∧
      s.any (fun v => v.id == fid) = false := by
  unfold createUser at h
  split at h
  · cases h
  · split at h
    · cases h
    next d hd =>
      split at h
      · cases h
      next hfind =>
        split at h
        · cases h
        next hany =>
          rw [Except.ok.injEq, Prod.mk.injEq] at h
          exact ⟨d, hd, h.1.symm, h.2.symm, hfind, by simpa using hany⟩

/-- Inverting a successful update: the body validated, the row exists, the
duplicate-e-mail lookup (excluding the row's own id) found nothing when a
non-empty e-mail was in the change set, and the store is mapped through
`applyUpdate` at the matching id. -/
theorem updateUser_ok {E D : String → Bool} {id : String} {b : Json} {s : Store}
    {u? : Option User} {s' : Store}
    (h : updateUser E D id b s = .ok (u?, s')) :
    ∃ d w, updateSafeParse E D b = .ok d ∧
      s.find? (fun v => v.id == id) = some w ∧
      s' = s.map (fun v => if v.id == id then applyUpdate d v else v) ∧
      u? = s'.find? (fun v => v.id == id) ∧
      (∀ e, d.email = some e → e ≠ "" →
        s.find? (fun v => v.email == e && !(v.id == id)) = none) := by
  unfold updateUser at h
  split at h
  · cases h
  · split at h
    · cases h
    next d hd =>
      split at h
      · cases h
      next w hw =>
        have finish : ∀ hp : prismaUpdate s id d = (u?, s'),
            (∀ e, d.email = some e → e ≠ "" →
              s.find? (fun v => v.email == e && !(v.id == id)) = none) →
            ∃ d w, updateSafeParse E D b = .ok d ∧
              s.find? (fun v => v.id == id) = some w ∧
              s' = s.map (fun v => if v.id == id then applyUpdate d v else v) ∧
              u? = s'.find? (fun v => v.id == id) ∧
              (∀ e, d.email = some e → e ≠ "" →
                s.find? (fun v => v.email == e && !(v.id == id)) = none) := by
          intro hp hmail
          have hu : u? = (prismaUpdate s id d).1 := (congrArg Prod.fst hp).symm
          have hs : s' = (prismaUpdate s id d).2 := (congrArg Prod.snd hp).symm
          exact ⟨d, w, hd, hw, hs, by rw [hu, hs]; rfl, hmail⟩
        split at h
        next e hde =>
          split at h
          · exact finish (Except.ok.inj h) (fun e' he' hne' => by
              rw [hde] at he'; cases he'; simp_all)
          · split at h
            · cases h
            next hfound =>
              exact finish (Except.ok.inj h) (fun e' he' hne' => by
                rw [hde] at he'; cases he'
                simpa using hfound)
        next hde =>
          exact finish (Except.ok.inj h) (fun e' he' _ => by rw [hde] at he'; cases he')

/-- Inverting a successful delete: the row was found, and is both the
returned row and the one removed. -/
theorem deleteUser_ok {id : String} {s : Store} {u? : Option User} {s' : Store}
    (h : deleteUser id s = .ok (u?, s')) :
    ∃ w, s.find? (fun v => v.id == id) = some w ∧ u? = some w ∧
      s' = s.filter (fun v => !(v.id == id)) := by
  unfold deleteUser at h
  split at h
  · cases h
  next w hw =>
    have hp : prismaDelete s id = (u?, s') := Except.ok.inj h
    have hu : u? = (prismaDelete s id).1 := (congrArg Prod.fst hp).symm
    have hs : s' = (prismaDelete s id).2 := (congrArg Prod.snd hp).symm
    exact ⟨w, hw, by rw [hu]; simpa [prismaDelete] using hw, hs⟩

/-! ## Preservation of the store invariant -/

theorem upd_id (d : UpdateData) (id : String) (u : User) :
    (if u.id == id then applyUpdate d u else u).id = u.id := by
  split <;> simp

theorem map_upd_ids (d : UpdateData) (id : String) (l : List User) :
    ((l.map fun u => if u.id == id then applyUpdate d u else u).map User.id) =
      l.map User.id := by
  rw [List.map_map]
  exact List.map_congr_left fun u _ => upd_id d id u

theorem map_upd_emails_none {d : UpdateData} (hd : d.email = none) (id : String)
    (l : List User) :
    ((l.map fun u => if u.id == id then applyUpdate d u else u).map User.email) =
      l.map User.email := by
  rw [List.map_map]
  refine List.map_congr_left fun u _ => ?_
  show (if u.id == id then applyUpdate d u else u).email = u.email
  split
  · exact applyUpdate_email_none u hd
  · rfl

/-- Replacing the e-mail of the (unique) row with the given id by a value
no *other* row carries keeps the e-mail column duplicate-free. -/
theorem nodup_map_update {d : UpdateData} {e uid : String} (hd : d.email = some e) :
    ∀ l : List User, (l.map User.id).Nodup → (l.map User.email).Nodup →
      (∀ v ∈ l, v.email = e → v.id = uid) →
      ((l.map fun u => if u.id == uid then applyUpdate d u else u).map User.email).Nodup := by
  intro l
  induction l with
  | nil => simp
  | cons u t ih =>
      intro hid hem hother
      simp only [List.map_cons, List.nodup_cons] at hid hem
      obtain ⟨hidh, hidt⟩ := hid
      obtain ⟨hemh, hemt⟩ := hem
      simp only [List.map_cons, List.nodup_cons]
      by_cases hu : u.id = uid
      · have htail : (t.map fun v => if v.id == uid then applyUpdate d v else v) = t := by
          refine (List.map_congr_left fun v hv => ?_).trans (List.map_id t)
          have hne : v.id ≠ uid := fun hvid =>
            hidh (by rw [hu, ← hvid]; exact List.mem_map_of_mem User.id hv)
          simp [hne]
        rw [htail]
        refine ⟨?_, hemt⟩
        rw [show (if u.id == uid then applyUpdate d u else u) = applyUpdate d u by simp [hu],
          applyUpdate_email u hd]
        intro hmem
        rcases List.mem_map.mp hmem with ⟨v, hv, hveq⟩
        have hvid := hother v (List.mem_cons_of_mem _ hv) hveq
        exact hidh (by rw [hu, ← hvid]; exact List.mem_map_of_mem User.id hv)
      · rw [show (if u.id == uid then applyUpdate d u else u) = u by simp [hu]]
        refine ⟨?_, ih hidt hemt (fun v hv => hother v (List.mem_cons_of_mem _ hv))⟩
        intro hmem
        rcases List.mem_map.mp hmem with ⟨v', hv', hveq⟩
        rcases List.mem_map.mp hv' with ⟨v, hv, rfl⟩
        by_cases hvid : v.id = uid
        · rw [show (if v.id == uid then applyUpdate d v else v) = applyUpdate d v by simp [hvid],
            applyUpdate_email v hd] at hveq
          exact hu (hother u (List.mem_cons_self u t) hveq.symm)
        · rw [show (if v.id == uid then applyUpdate d v else v) = v by simp [hvid]] at hveq
          exact hemh (hveq ▸ List.mem_map_of_mem User.email hv)

theorem createUser_inv {E D : String → Bool} {fid : String} {b : Json} {s : Store}
    {u : User} {s' : Store}
    (h : createUser E D fid b s = .ok (u, s')) (hinv : StoreInv s) : StoreInv s' := by
  rcases createUser_ok h with ⟨d, -, -, hs', hfind, hany⟩
  subst hs'
  obtain ⟨hid, hem⟩ := hinv
  constructor
  · refine List.nodup_cons.mpr ⟨?_, hid⟩
    intro hmem
    rcases List.mem_map.mp hmem with ⟨v, hv, hveq⟩
    have := List.any_eq_false.mp hany v hv
    simp only [mkUser] at hveq
    simp [hveq] at this
  · refine List.nodup_cons.mpr ⟨?_, hem⟩
    intro hmem
    rcases List.mem_map.mp hmem with ⟨v, hv, hveq⟩
    have := List.find?_eq_none.mp hfind v hv
    simp only [mkUser] at hveq
    simp [hveq] at this

theorem updateUser_inv {E D : String → Bool} {id : String} {b : Json} {s : Store}
    {u? : Option User} {s' : Store}
    (hE : ∀ r, E r = true → normEmail r ≠ "")
    (h : updateUser E D id b s = .ok (u?, s')) (hinv : StoreInv s) : StoreInv s' := by
  rcases updateUser_ok h with ⟨d, w, hd, -, hs', -, hmail⟩
  subst hs'
  obtain ⟨hid, hem⟩ := hinv
  refine ⟨by rw [map_upd_ids]; exact hid, ?_⟩
  cases hde : d.email with
  | none => rw [map_upd_emails_none hde]; exact hem
  | some e =>
      have hne : e ≠ "" := by
        rcases updateSafeParse_ok_email hd hde with ⟨r, hEr, her⟩
        rw [her]; exact hE r hEr
      have hfind := hmail e hde hne
      have hother : ∀ v ∈ s, v.email = e → v.id = id := by
        intro v hv hve
        by_contra hvid
        have := List.find?_eq_none.mp hfind v hv
        simp [hve, hvid] at this
      exact nodup_map_update hde s hid hem hother

theorem deleteUser_inv {id : String} {s : Store} {u? : Option User} {s' : Store}
    (h : deleteUser id s = .ok (u?, s')) (hinv : StoreInv s) : StoreInv s' := by
  rcases deleteUser_ok h with ⟨w, -, -, hs'⟩
  subst hs'
  exact ⟨List.Nodup.sublist (List.Sublist.map User.id (List.filter_sublist s)) hinv.1,
         List.Nodup.sublist (List.Sublist.map User.email (List.filter_sublist s)) hinv.2⟩

theorem applyOp_inv {E D : String → Bool}
    (hE : ∀ r, E r = true → normEmail r ≠ "") {s : Store}
    (hinv : StoreInv s) (op : Op) : StoreInv (applyOp E D s op) := by
  cases op with
  | create fid b =>
      simp only [applyOp]
      cases h : createUser E D fid b s with
      | ok p =>
          obtain ⟨u, s'⟩ := p
          exact createUser_inv h hinv
      | error e => exact hinv
  | update id b =>
      simp only [applyOp]
      cases h : updateUser E D id b s with
      | ok p =>
          obtain ⟨u?, s'⟩ := p
          exact updateUser_inv hE h hinv
      | error e => exact hinv
  | delete id =>
      simp only [applyOp]
      cases h : deleteUser id s with
      | ok p =>
          obtain ⟨u?, s'⟩ := p
          exact deleteUser_inv h hinv
      | error e => exact hinv

/-! ## Claims -/

/-- C1: Starting from an empty store and applying any sequence of
sequentially-executed create, update and delete operations, no two stored
user records ever have the same (normalized, lower-cased) e-mail: create
rejects a candidate whose e-mail already exists, and update rejects a new
e-mail belonging to any other record, before any write is issued.  The
hypothesis records the one property of the external e-mail format test the
argument needs: a string accepted by `z.email` does not normalize to the
empty string (otherwise JS truthiness would skip the update-side check). -/
theorem C1_email_uniqueness (E D : String → Bool)
    (hE : ∀ r, E r = true → normEmail r ≠ "")
    (ops : List Op) :
    ((ops.foldl (applyOp E D) emptyStore).map User.email).Nodup := by
  suffices h : ∀ s, StoreInv s → StoreInv (ops.foldl (applyOp E D) s) from
    (h emptyStore ⟨List.nodup_nil, List.nodup_nil⟩).2
  induction ops with
  | nil => exact fun s hs => hs
  | cons op rest ih =>
      intro s hs
      exact ih _ (applyOp_inv hE hs op)

/-- Witness for C1 at a concrete validator and operation sequence. -/
theorem C1_email_uniqueness_witness :
    (∀ r, (fun x => decide (normEmail x ≠ "")) r = true → normEmail r ≠ "") ∧
    (([Op.create "u1" (.obj [("name", .str "Ann"), ("ext", .str "1"),
        ("phone", .str "12345"), ("email", .str "A@x.com"),
        ("dateOfBirth", .str "2000-01-01"), ("password", .str "secret1"),
        ("skills", .arr [.obj [("field", .str "abc"),
          ("tags", .arr [.str "xyz"])]])]),
      Op.create "u2" (.obj [("email", .str "a@x.com")]),
      Op.delete "zz"].foldl
        (applyOp (fun x => decide (normEmail x ≠ "")) (fun _ => true)) emptyStore).map
      User.email).Nodup :=
  ⟨fun _r h => of_decide_eq_true h,
   C1_email_uniqueness _ (fun _ => true) (fun _r h => of_decide_eq_true h) _⟩

/-! ## Pagination facts -/

/-- For a positive divisor, `jsCeilDiv` is exactly the ceiling of the
rational quotient: the characterization below pins it uniquely. -/
theorem jsCeilDiv_spec (n : Nat) (b : Int) (hb : 1 ≤ b) :
    b * (jsCeilDiv n b - 1) < (n : Int) ∧ (n : Int) ≤ b * jsCeilDiv n b := by
  unfold jsCeilDiv
  rw [if_pos (by omega : (0:Int) < b)]
  have hm1 : 1 ≤ b.toNat := by omega
  have hdm := Nat.div_add_mod (n + b.toNat - 1) b.toNat
  have hmod := Nat.mod_lt (n + b.toNat - 1) (show 0 < b.toNat by omega)
  have hcast : ((b.toNat : Nat) : Int) = b := by omega
  set q := (n + b.toNat - 1) / b.toNat with hqdef
  set r := (n + b.toNat - 1) % b.toNat with hrdef
  have key : (b.toNat : Int) * (q : Int) + (r : Int) = (n : Int) + (b.toNat : Int) - 1 := by
    have h1 : b.toNat * q + r = n + b.toNat - 1 := hdm
    zify [show (1:Nat) ≤ n + b.toNat by omega] at h1
    linarith
  have hr0 : (0:Int) ≤ (r : Int) := by positivity
  have hrb : (r : Int) < (b.toNat : Int) := by exact_mod_cast hmod
  constructor
  · rw [← hcast, mul_sub, mul_one]
    linarith
  · rw [← hcast]
    linarith

/-- The pagination contract of one list request: the returned counters,
the clamp of the requested page into `[1, totalPages]` (`1` on an empty
result set), the `(currentPage - 1) * limit` fetch offset, the `limit`
bound on the slice, the two cursor booleans, and the worked spec example
(12 users, limit 5: page 99 yields the page-3 slice). -/
def pagSpec (q : PaginationQuery) (s : Store) : Prop :=
  let p := jsOrDefault q.page 1
  let L := jsOrDefault q.limit 5
  let r := getAllUsers q s
  r.totalUsers = (s.length : Int) ∧
  r.limit = L ∧
  (L * (r.totalPages - 1) < (s.length : Int) ∧ (s.length : Int) ≤ L * r.totalPages) ∧
  r.currentPage = max 1 (min p r.totalPages) ∧
  (r.totalPages = 0 → r.currentPage = 1) ∧
  1 ≤ r.currentPage ∧
  r.currentPage ≤ max 1 r.totalPages ∧
  r.data = (s.drop ((r.currentPage - 1) * L).toNat).take L.toNat ∧
  ((r.data.length : Int) ≤ L) ∧
  r.hasNext = decide (r.currentPage < r.totalPages) ∧
  r.hasPrev = decide (1 < r.currentPage) ∧
  (s.length = 12 →
    (getAllUsers ⟨some (some 99), some (some 5)⟩ s).data =
      (getAllUsers ⟨some (some 3), some (some 5)⟩ s).data)

/-- C2: For every list request with requested page `p` and limit `L`
(defaults 1 and 5, the limit positive as every limit the spec's contract
covers), the returned `currentPage` equals `p` clamped into
`[1, totalPages]` with `totalPages = ⌈totalUsers / L⌉` (and `currentPage
= 1` when `totalPages = 0`), the fetch offset is `(currentPage - 1) * L`,
at most `L` records are returned, `hasNext = (currentPage < totalPages)`,
`hasPrev = (currentPage > 1)`; and with 12 users and `L = 5`, requesting
page 99 yields the page-3 results. -/
theorem C2_pagination (q : PaginationQuery) (s : Store)
    (hL : 1 ≤ jsOrDefault q.limit 5) : pagSpec q s := by
  have hceil := jsCeilDiv_spec s.length (jsOrDefault q.limit 5) hL
  refine ⟨rfl, rfl, hceil, rfl, ?_, ?_, ?_, rfl, ?_, rfl, rfl, ?_⟩
  · intro h0
    show max 1 (min (jsOrDefault q.page 1) (getAllUsers q s).totalPages) = 1
    omega
  · show 1 ≤ max 1 (min (jsOrDefault q.page 1) (getAllUsers q s).totalPages)
    omega
  · show max 1 (min (jsOrDefault q.page 1) (getAllUsers q s).totalPages) ≤
      max 1 (getAllUsers q s).totalPages
    omega
  · have hlen := List.length_take ((jsOrDefault q.limit 5).toNat)
      (s.drop (((getAllUsers q s).currentPage - 1) * jsOrDefault q.limit 5).toNat)
    show (((s.drop (((getAllUsers q s).currentPage - 1) * jsOrDefault q.limit 5).toNat).take
      (jsOrDefault q.limit 5).toNat).length : Int) ≤ jsOrDefault q.limit 5
    rw [hlen]
    omega
  · intro h12
    have h99 : (getAllUsers ⟨some (some 99), some (some 5)⟩ s).data =
        (s.drop ((max 1 (min 99 (jsCeilDiv s.length 5)) - 1) * 5).toNat).take
          ((5:Int).toNat) := rfl
    have h3 : (getAllUsers ⟨some (some 3), some (some 5)⟩ s).data =
        (s.drop ((max 1 (min 3 (jsCeilDiv s.length 5)) - 1) * 5).toNat).take
          ((5:Int).toNat) := rfl
    rw [h99, h3, h12]
    norm_num [show jsCeilDiv 12 5 = 3 from by decide]

/-- Witness for C2 at a 12-user store, requested page 99, limit 5. -/
theorem C2_pagination_witness :
    1 ≤ jsOrDefault (PaginationQuery.mk (some (some 99)) (some (some 5))).limit 5 ∧
    pagSpec ⟨some (some 99), some (some 5)⟩
      ((List.range 12).map fun k =>
        ⟨"u" ++ toString k, "Ann", "1", "12345", "a" ++ toString k ++ "@x.com",
         "2000-01-01", "secret1", [⟨"abc", ["xyz"]⟩]⟩) :=
  ⟨by decide, C2_pagination _ _ (by decide)⟩

/-- The falsy query-parameter shapes: absent, non-numeric (`parseInt`
gives `NaN`), or parsed to `0`. -/
def QDefaulty (o : Option String) : Prop :=
  match o with
  | none => True
  | some str => jsParseInt str = none ∨ jsParseInt str = some 0

/-- C10: For every list request whose `page` or `limit` query parameter is
absent, non-numeric (`parseInt` gives `NaN`) or `0`, the listing uses the
defaults page 1 and limit 5; and the effective limit the service divides
by is never `0` (so `totalPages` is never computed with a zero divisor). -/
theorem C10_query_defaults (q : RawQuery) :
    (QDefaulty q.page → jsOrDefault (toPagination q).page 1 = 1) ∧
    (QDefaulty q.limit → jsOrDefault (toPagination q).limit 5 = 5) ∧
    (∀ pq : PaginationQuery, jsOrDefault pq.limit 5 ≠ 0) := by
  refine ⟨?_, ?_, ?_⟩
  · intro hp
    cases hq : q.page with
    | none => simp [toPagination, hq, jsOrDefault]
    | some str =>
        rw [hq] at hp
        by_cases hs : str = ""
        · simp [toPagination, hq, hs, jsOrDefault]
        · rcases hp with h | h <;> simp [toPagination, hq, hs, h, jsOrDefault]
  · intro hl
    cases hq : q.limit with
    | none => simp [toPagination, hq, jsOrDefault]
    | some str =>
        rw [hq] at hl
        by_cases hs : str = ""
        · simp [toPagination, hq, hs, jsOrDefault]
        · rcases hl with h | h <;> simp [toPagination, hq, hs, h, jsOrDefault]
  · intro pq
    rcases pq with ⟨pg, lm⟩
    rcases lm with _ | lm
    · simp [jsOrDefault]
    · rcases lm with _ | n
      · simp [jsOrDefault]
      · by_cases hn : n = 0 <;> simp [jsOrDefault, hn]

/-- Witness for C10: `?page=abc&limit=0` falls back to page 1, limit 5. -/
theorem C10_query_defaults_witness :
    QDefaulty (some "abc") ∧
    jsOrDefault (toPagination ⟨some "abc", some "0"⟩).page 1 = 1 ∧
    QDefaulty (some "0") ∧
    jsOrDefault (toPagination ⟨some "abc", some "0"⟩).limit 5 = 5 ∧
    (∀ pq : PaginationQuery, jsOrDefault pq.limit 5 ≠ 0) :=
  ⟨Or.inl rfl,
   (C10_query_defaults ⟨some "abc", some "0"⟩).1 (Or.inl rfl),
   Or.inr rfl,
   (C10_query_defaults ⟨some "abc", some "0"⟩).2.1 (Or.inr rfl),
   (C10_query_defaults ⟨some "abc", some "0"⟩).2.2⟩

/-- C3: For every pair of create requests whose raw e-mails normalize to
the same string (in particular, differ only in letter case), if the first
create succeeded and the second passes validation, the second create fails
with the duplicate-e-mail client error: validation lower-cases and trims
the e-mail before the store lookup, so the (case-sensitive) `findUnique`
on the normalized e-mail finds the first record. -/
theorem C3_case_duplicate (E D : String → Bool) (fid1 fid2 : String)
    (s : Store) (b1 b2 : Json) (u1 : User) (s1 : Store) (d2 : CreateData)
    (e1 e2 : String)
    (h1 : createUser E D fid1 b1 s = .ok (u1, s1))
    (hg1 : b1.getField "email" = some (.str e1))
    (hg2 : b2.getField "email" = some (.str e2))
    (hcase : normEmail e1 = normEmail e2)
    (hv2 : createSafeParse E D b2 = .ok d2) :
    createUser E D fid2 b2 s1 = .error (.objBody "User already exists"
      [⟨"email", "User with this email already exists", some (.str d2.email)⟩]) := by
  rcases createUser_ok h1 with ⟨d1, hv1, -, hs1, -, -⟩
  rcases (createSafeParse_ok hv1).2 with ⟨r1, hr1, -, he1⟩
  rcases (createSafeParse_ok hv2).2 with ⟨r2, hr2, -, he2⟩
  have hre1 : r1 = e1 := Json.str.inj (Option.some.inj (hr1.symm.trans hg1))
  have hre2 : r2 = e2 := Json.str.inj (Option.some.inj (hr2.symm.trans hg2))
  have hemail : d2.email = d1.email := by
    rw [he1, he2, hre1, hre2, hcase]
  have hobj2 : b2.isObj = true := createSafeParse_ok_isObj hv2
  unfold createUser
  rw [if_neg (by simp [hobj2])]
  simp only [hv2]
  have hhead : s1.find? (fun v => v.email == d2.email) = some (mkUser fid1 d1) := by
    rw [hs1]
    exact List.find?_cons_of_pos _ (by simp [mkUser, hemail])
  rw [hhead]

/-- Witness for C3: `A@x.com` then `a@x.com` on an empty store. -/
theorem C3_case_duplicate_witness :
    createUser (fun _ => true) (fun _ => true) "u1"
      (.obj [("name", .str "Ann"), ("ext", .str "1"), ("phone", .str "12345"),
        ("email", .str "A@x.com"), ("dateOfBirth", .str "2000-01-01"),
        ("password", .str "secret1"),
        ("skills", .arr [.obj [("field", .str "abc"), ("tags", .arr [.str "xyz"])]])])
      emptyStore =
      .ok (⟨"u1", "Ann", "1", "12345", "a@x.com", "2000-01-01", "secret1", [⟨"abc", ["xyz"]⟩]⟩,
        [⟨"u1", "Ann", "1", "12345", "a@x.com", "2000-01-01", "secret1", [⟨"abc", ["xyz"]⟩]⟩]) ∧
    normEmail "A@x.com" = normEmail "a@x.com" ∧
    createUser (fun _ => true) (fun _ => true) "u2"
      (.obj [("name", .str "Bea"), ("ext", .str "1"), ("phone", .str "12345"),
        ("email", .str "a@x.com"), ("dateOfBirth", .str "2000-01-01"),
        ("password", .str "secret1"),
        ("skills", .arr [.obj [("field", .str "abc"), ("tags", .arr [.str "xyz"])]])])
      [⟨"u1", "Ann", "1", "12345", "a@x.com", "2000-01-01", "secret1", [⟨"abc", ["xyz"]⟩]⟩] =
      .error (.objBody "User already exists"
        [⟨"email", "User with this email already exists", some (.str "a@x.com")⟩]) :=
  ⟨rfl, by decide,
   C3_case_duplicate (fun _ => true) (fun _ => true) "u1" "u2" emptyStore
     (.obj [("name", .str "Ann"), ("ext", .str "1"), ("phone", .str "12345"),
       ("email", .str "A@x.com"), ("dateOfBirth", .str "2000-01-01"),
       ("password", .str "secret1"),
       ("skills", .arr [.obj [("field", .str "abc"), ("tags", .arr [.str "xyz"])]])])
     (.obj [("name", .str "Bea"), ("ext", .str "1"), ("phone", .str "12345"),
       ("email", .str "a@x.com"), ("dateOfBirth", .str "2000-01-01"),
       ("password", .str "secret1"),
       ("skills", .arr [.obj [("field", .str "abc"), ("tags", .arr [.str "xyz"])]])])
     ⟨"u1", "Ann", "1", "12345", "a@x.com", "2000-01-01", "secret1", [⟨"abc", ["xyz"]⟩]⟩
     [⟨"u1", "Ann", "1", "12345", "a@x.com", "2000-01-01", "secret1", [⟨"abc", ["xyz"]⟩]⟩]
     ⟨"Bea", "1", "12345", "a@x.com", "2000-01-01", "secret1", [⟨"abc", ["xyz"]⟩]⟩
     "A@x.com" "a@x.com" rfl rfl rfl (by decide) rfl⟩

/-- C4 (counterexample): the claim asserts the failure envelope is served
with HTTP status 200; at the invalid body `null` the route returns the
`success:false` envelope with status 201 (the `@HttpCode(CREATED)` route
status applies to the caught-and-returned failure as well). -/
theorem C4_counterexample :
    (createUserRoute (fun _ => true) (fun _ => true) "u1" Json.null emptyStore).1.body.success
      = false ∧
    (createUserRoute (fun _ => true) (fun _ => true) "u1" Json.null emptyStore).1.status = 201 ∧
    (createUserRoute (fun _ => true) (fun _ => true) "u1" Json.null emptyStore).1.status ≠ 200 :=
  ⟨rfl, rfl, by decide⟩

/-- C4 (amended): the create endpoint responds with HTTP status 201 and an
envelope containing the created user on success, and with the same fixed
route status 201 and an envelope with `success:false` carrying the field
errors when validation or the duplicate-e-mail check fails — the failure
envelope is returned rather than thrown. -/
theorem C4_create_envelope (E D : String → Bool) (fid : String) (body : Json)
    (s : Store) :
    (createUserRoute E D fid body s).1.status = 201 ∧
    (match createUser E D fid body s with
     | .ok (u, _) => (createUserRoute E D fid body s).1.body =
         { success := true, message := "User created successfully", data := some u }
     | .error e => (createUserRoute E D fid body s).1.body =
         { success := false, message := badRequestMessage e,
           errors := some (badRequestErrors e) }) := by
  cases h : createUser E D fid body s with
  | ok p =>
      obtain ⟨u, s'⟩ := p
      exact ⟨by simp [createUserRoute, h], by simp [createUserRoute, h]⟩
  | error e =>
      exact ⟨by simp [createUserRoute, h], by simp [createUserRoute, h]⟩

/-- C5: For every existing user, an update that supplies that user's own
current e-mail (alone or with other fields) does not fail the
duplicate-e-mail check: the `findFirst` excludes the record's own id, so
(in a duplicate-free store) only other records can cause the
`Email already exists` client error. -/
theorem C5_own_email_update (E D : String → Bool) (s : Store) (u : User)
    (body : Json) (d : UpdateData)
    (hu : u ∈ s) (hem : (s.map User.email).Nodup)
    (hv : updateSafeParse E D body = .ok d) (he : d.email = some u.email) :
    updateUser E D u.id body s ≠ .error (.strMsg "Email already exists") := by
  intro hcontra
  have hobj : body.isObj = true := updateSafeParse_ok_isObj hv
  have hfindsome : (s.find? (fun v => v.id == u.id)).isSome :=
    List.find?_isSome.mpr ⟨u, hu, by simp⟩
  obtain ⟨w, hw⟩ := Option.isSome_iff_exists.mp hfindsome
  have hnone : s.find? (fun v => v.email == u.email && !(v.id == u.id)) = none := by
    apply List.find?_eq_none.mpr
    intro v hv' hpv
    simp only [Bool.and_eq_true, beq_iff_eq, Bool.not_eq_eq_eq_not, Bool.not_true,
      beq_eq_false_iff_ne, ne_eq] at hpv
    obtain ⟨hve, hvi⟩ := hpv
    exact hvi (congrArg User.id (List.inj_on_of_nodup_map hem hv' hu hve))
  unfold updateUser at hcontra
  rw [if_neg (by simp [hobj])] at hcontra
  simp only [hv] at hcontra
  simp only [hw] at hcontra
  simp only [he] at hcontra
  by_cases hne : u.email = ""
  · rw [if_pos hne] at hcontra
    cases hcontra
  · rw [if_neg hne] at hcontra
    rw [hnone] at hcontra
    simp at hcontra

/-- Witness for C5: updating the only user with its own e-mail. -/
theorem C5_own_email_update_witness :
    (⟨"u1", "Ann", "1", "12345", "a@x.com", "2000-01-01", "secret1",
        [⟨"abc", ["xyz"]⟩]⟩ : User) ∈
      ([⟨"u1", "Ann", "1", "12345", "a@x.com", "2000-01-01", "secret1",
        [⟨"abc", ["xyz"]⟩]⟩] : Store) ∧
    (([⟨"u1", "Ann", "1", "12345", "a@x.com", "2000-01-01", "secret1",
        [⟨"abc", ["xyz"]⟩]⟩] : Store).map User.email).Nodup ∧
    updateSafeParse (fun _ => true) (fun _ => true) (.obj [("email", .str "a@x.com")]) =
      .ok { email := some "a@x.com" } ∧
    updateUser (fun _ => true) (fun _ => true) "u1" (.obj [("email", .str "a@x.com")])
      [⟨"u1", "Ann", "1", "12345", "a@x.com", "2000-01-01", "secret1", [⟨"abc", ["xyz"]⟩]⟩] ≠
      .error (.strMsg "Email already exists") :=
  ⟨by decide, by decide, rfl,
   C5_own_email_update (fun _ => true) (fun _ => true) _
     ⟨"u1", "Ann", "1", "12345", "a@x.com", "2000-01-01", "secret1", [⟨"abc", ["xyz"]⟩]⟩
     _ { email := some "a@x.com" } (by decide) (by decide) rfl rfl⟩

/-- C6: For every update on an existing user, the record identifiers are
unchanged after the update, regardless of the request body: the update
schema is the create schema made partial (which never contained `id`), and
unrecognized keys are stripped, so the persisted change set never contains
`id`; the returned row still carries the requested id. -/
theorem C6_id_immutable (E D : String → Bool) (id : String) (body : Json)
    (s : Store) (u? : Option User) (s' : Store)
    (h : updateUser E D id body s = .ok (u?, s')) :
    s'.map User.id = s.map User.id ∧ (∀ u, u? = some u → u.id = id) := by
  rcases updateUser_ok h with ⟨d, w, -, -, hs', hu?, -⟩
  subst hs'
  refine ⟨map_upd_ids d id s, ?_⟩
  intro u hu
  rw [hu?] at hu
  simpa using List.find?_some hu

/-- Witness for C6: a name-only update on a one-user store. -/
theorem C6_id_immutable_witness :
    updateUser (fun _ => true) (fun _ => true) "u1" (.obj [("name", .str "Bob")])
      [⟨"u1", "Ann", "1", "12345", "a@x.com", "2000-01-01", "secret1", [⟨"abc", ["xyz"]⟩]⟩] =
      .ok (some ⟨"u1", "Bob", "1", "12345", "a@x.com", "2000-01-01", "secret1", [⟨"abc", ["xyz"]⟩]⟩,
        [⟨"u1", "Bob", "1", "12345", "a@x.com", "2000-01-01", "secret1", [⟨"abc", ["xyz"]⟩]⟩]) ∧
    (([⟨"u1", "Bob", "1", "12345", "a@x.com", "2000-01-01", "secret1", [⟨"abc", ["xyz"]⟩]⟩] :
        Store).map User.id =
      ([⟨"u1", "Ann", "1", "12345", "a@x.com", "2000-01-01", "secret1", [⟨"abc", ["xyz"]⟩]⟩] :
        Store).map User.id ∧
     ∀ u, (some (⟨"u1", "Bob", "1", "12345", "a@x.com", "2000-01-01", "secret1",
        [⟨"abc", ["xyz"]⟩]⟩ : User) : Option User) = some u → u.id = "u1") :=
  ⟨rfl, C6_id_immutable (fun _ => true) (fun _ => true) "u1" (.obj [("name", .str "Bob")])
     [⟨"u1", "Ann", "1", "12345", "a@x.com", "2000-01-01", "secret1", [⟨"abc", ["xyz"]⟩]⟩]
     (some ⟨"u1", "Bob", "1", "12345", "a@x.com", "2000-01-01", "secret1", [⟨"abc", ["xyz"]⟩]⟩)
     [⟨"u1", "Bob", "1", "12345", "a@x.com", "2000-01-01", "secret1", [⟨"abc", ["xyz"]⟩]⟩]
     rfl⟩

/-- C7: For every id not present in the store, delete throws a client
error whose message names that id, and the store (in particular the user
count) is unchanged: the existence check runs first and no delete is
issued on the absent branch. -/
theorem C7_delete_missing (E D : String → Bool) (id : String) (s : Store)
    (h : ∀ u ∈ s, u.id ≠ id) :
    deleteUser id s = .error (.strMsg ("User with id " ++ id ++ " not found")) ∧
    applyOp E D s (Op.delete id) = s := by
  have hfind : s.find? (fun u => u.id == id) = none :=
    List.find?_eq_none.mpr (fun u hu => by simpa using h u hu)
  constructor
  · unfold deleteUser
    rw [hfind]
  · simp [applyOp, deleteUser, hfind]

/-- Witness for C7: deleting the absent id `zz` from a one-user store. -/
theorem C7_delete_missing_witness :
    (∀ u ∈ ([⟨"u1", "Ann", "1", "12345", "a@x.com", "2000-01-01", "secret1",
        [⟨"abc", ["xyz"]⟩]⟩] : Store), u.id ≠ "zz") ∧
    (deleteUser "zz"
        [⟨"u1", "Ann", "1", "12345", "a@x.com", "2000-01-01", "secret1", [⟨"abc", ["xyz"]⟩]⟩] =
        .error (.strMsg "User with id zz not found") ∧
      applyOp (fun _ => true) (fun _ => true)
        [⟨"u1", "Ann", "1", "12345", "a@x.com", "2000-01-01", "secret1", [⟨"abc", ["xyz"]⟩]⟩]
        (Op.delete "zz") =
        [⟨"u1", "Ann", "1", "12345", "a@x.com", "2000-01-01", "secret1", [⟨"abc", ["xyz"]⟩]⟩]) :=
  ⟨by decide, C7_delete_missing (fun _ => true) (fun _ => true) "zz" _ (by decide)⟩

/-- C8: For every update candidate that is an object but fails schema
validation, the thrown client error carries a single concatenated message
listing `path: message` pairs joined by `, ` (one pair per validation
issue, in issue order) — a plain string, not the structured
field/message/receivedValue list used by create. -/
theorem C8_update_error_format (E D : String → Bool) (id : String) (s : Store)
    (body : Json) (issues : List Issue)
    (hobj : body.isObj = true)
    (hv : updateSafeParse E D body = .error issues) :
    updateUser E D id body s = .error (.strMsg ("Validation failed: " ++
      String.intercalate ", " (issues.map fun i => pathJoin i.path ++ ": " ++ i.message))) := by
  unfold updateUser
  rw [if_neg (by simp [hobj])]
  simp only [hv]

/-- Witness for C8: a numeric `name` on an otherwise empty update body. -/
theorem C8_update_error_format_witness :
    (Json.obj [("name", Json.num 5)]).isObj = true ∧
    updateSafeParse (fun _ => true) (fun _ => true) (.obj [("name", .num 5)]) =
      .error [⟨[.key "name"], "Invalid input: expected string, received number"⟩] ∧
    updateUser (fun _ => true) (fun _ => true) "u1" (.obj [("name", .num 5)]) [] =
      .error (.strMsg "Validation failed: name: Invalid input: expected string, received number") :=
  ⟨rfl, rfl,
   C8_update_error_format (fun _ => true) (fun _ => true) "u1" [] _
     [⟨[.key "name"], "Invalid input: expected string, received number"⟩] rfl rfl⟩

/-- C9: the delete and update handlers never return their
`{success:false, message:'User not found'}` envelope: when the user is
absent the service throws before returning, so the service result the
handlers test is never null and that branch is unreachable — every
normally-returned envelope is the success one. -/
theorem C9_not_found_unreachable (E D : String → Bool) (id : String)
    (body : Json) (s : Store) :
    (match deleteUserRoute id s with
     | .ok (env, _) => env.success = true ∧ env.message = "User deleted successfully"
     | .error _ => True) ∧
    (match updateUserRoute E D id body s with
     | .ok (env, _) => env.success = true ∧ env.message = "User updated successfully"
     | .error _ => True) := by
  constructor
  · cases hd : deleteUser id s with
    | error e => simp [deleteUserRoute, hd]
    | ok p =>
        obtain ⟨u?, s'⟩ := p
        rcases deleteUser_ok hd with ⟨w, -, hu?, -⟩
        subst hu?
        simp [deleteUserRoute, hd]
  · cases hup : updateUser E D id body s with
    | error e => simp [updateUserRoute, hup]
    | ok p =>
        obtain ⟨u?, s'⟩ := p
        rcases updateUser_ok hup with ⟨d, w, -, hw, hs', hu?, -⟩
        have hmem : w ∈ s := List.mem_of_find?_eq_some hw
        have hpw : (w.id == id) = true := by simpa using List.find?_some hw
        have hsome : (s'.find? (fun v => v.id == id)).isSome := by
          rw [hs']
          apply List.find?_isSome.mpr
          refine ⟨(if w.id == id then applyUpdate d w else w),
            List.mem_map_of_mem _ hmem, ?_⟩
          rw [upd_id]
          exact hpw
        obtain ⟨v, hv⟩ := Option.isSome_iff_exists.mp hsome
        simp [updateUserRoute, hup, hu?, hv]

end UserCrud
